import Mathlib

/-!
Verification of the `js-libp2p-nat-mngr` mapping orchestrator.

Shallow embedding of the NAT manager sources:
* `src/index.js` — `NatManager` (adapter iteration, active-mapping table,
  deletion, renewal sweep);
* `src/mappers/mapper.js` — base `Mapper` (two-wave dispatch, renewal timers,
  local mapping registry);
* `src/mappers/pcp.js` — PCP codec (60-byte MAP request, deletion);
* `src/utils.js` — `longestPrefixMatch`, `ROUTER_IPS`, `createArrayBuffer`.

JavaScript objects used as dictionaries are modelled as association lists in
insertion order with unique keys (`jsGet` / `jsSet` / `jsDelete` reproduce
property read, write and `delete`).  JavaScript template keys
`` `${ip}:${port}` `` are modelled as `List Char` built by `mkKey`.
IPv4 addresses handled as 32-bit values (after `ipaddr.js` parsing) are
modelled as `Nat`.  Error values are abstracted as `Nat` codes.
-/

namespace NatMngr

/-- Property read on a JS object used as a dictionary: first (unique) matching
key, as in `obj[k]`. -/
def jsGet {κ α : Type} [DecidableEq κ] : List (κ × α) → κ → Option α
  | [], _ => none
  | (k, v) :: rest, k0 => if k = k0 then some v else jsGet rest k0

/-- Property write `obj[k] = v`: overwrite in place if the key exists,
otherwise append (JS objects keep insertion order). -/
def jsSet {κ α : Type} [DecidableEq κ] : List (κ × α) → κ → α → List (κ × α)
  | [], k0, v0 => [(k0, v0)]
  | (k, v) :: rest, k0, v0 =>
    if k = k0 then (k0, v0) :: rest else (k, v) :: jsSet rest k0 v0

/-- `delete obj[k]`. -/
def jsDelete {κ α : Type} [DecidableEq κ] : List (κ × α) → κ → List (κ × α)
  | [], _ => []
  | (k, v) :: rest, k0 => if k = k0 then rest else (k, v) :: jsDelete rest k0

/-- The keys of a modelled JS object. -/
def keysOf {κ α : Type} (t : List (κ × α)) : List κ := t.map Prod.fst

/-- Decimal digits with an explicit fuel bound; structural recursion so that
concrete keys evaluate definitionally. -/
def natCharsFuel : Nat → Nat → List Char
  | 0, _ => []
  | f + 1, n =>
    if n < 10 then [Nat.digitChar n]
    else natCharsFuel f (n / 10) ++ [Nat.digitChar (n % 10)]

/-- Decimal digits of a natural number, as produced by JS number-to-string
coercion inside a template literal (fuel `n + 1` always suffices). -/
def natChars (n : Nat) : List Char := natCharsFuel (n + 1) n

/-- Numeric value of a decimal digit character. -/
def digitVal (c : Char) : Nat := c.toNat - 48

/-- Decimal value of a digit string (decoder used to prove `natChars`
injective). -/
def charsVal (cs : List Char) : Nat := cs.foldl (fun a c => a * 10 + digitVal c) 0

/-- The composite active-mapping key `` `${ip}:${port}` `` of
`src/index.js:73`. -/
def mkKey (ip : List Char) (port : Nat) : List Char := ip ++ ':' :: natChars port

/-- An IPv4 dotted-quad string contains no colon. -/
abbrev colonFree (ip : List Char) : Prop := ':' ∉ ip

/-- Record produced by a successful `mapper.addMapping` callback
(`src/index.js:68`); only the fields the manager reads. -/
structure MgrMapping where
  externalIp : List Char
  externalPort : Nat
  internalPort : Nat
  protocol : Nat
deriving DecidableEq

/-- The manager's `activeMappings` object (`src/index.js:28`): composite key to
owning-mapper identifier. -/
abbrev MgrTable := List (List Char × Nat)

/-- Key under which `NatManager.addMapping` registers a successful mapping
(`src/index.js:73`). -/
def mgrKey (m : MgrMapping) : List Char := mkKey m.externalIp m.externalPort

/-- Model of `NatManager.addMapping` (`src/index.js:62-80`).  Each mapper is
given by its identifier and the outcome its `addMapping` callback reports;
`async/tryEach` runs them in order.  Returns the overall callback outcome
(`.ok none` is tryEach on an empty task list, which reports success with an
undefined result), the updated `activeMappings` table, and the identifiers of
the mappers actually attempted, in order. -/
def natAddMapping : List (Nat × Except Nat MgrMapping) → MgrTable →
    Except Nat (Option MgrMapping) × MgrTable × List Nat
  | [], t => (.ok none, t, [])
  | (i, .ok m) :: _, t => (.ok (some m), jsSet t (mgrKey m) i, [i])
  | (i, .error e) :: rest, t =>
    match rest with
    | [] => (.error e, t, [i])
    | _ :: _ =>
      let out := natAddMapping rest t
      (out.1, out.2.1, i :: out.2.2)

/-- Mutations the source ever applies to the manager's `activeMappings`:
registration on success (`src/index.js:74`) and eviction during the renewal
sweep (`src/index.js:47`). -/
inductive TableOp where
  | set (k : List Char) (v : Nat)
  | del (k : List Char)

/-- Apply one table mutation. -/
def applyOp (t : MgrTable) : TableOp → MgrTable
  | .set k v => jsSet t k v
  | .del k => jsDelete t k

/-- Every reachable state of the manager's table: the result of a finite
mutation history starting from the empty object of `src/index.js:28`. -/
def applyOps (ops : List TableOp) : MgrTable := ops.foldl applyOp []

/-! ### IPv4 values and `longestPrefixMatch` (`src/utils.js:111-128`) -/

/-- 32-bit value of a dotted quad, as `ipaddr.js` parses it. -/
def mkIp (a b c d : Nat) : Nat := ((a * 256 + b) * 256 + c) * 256 + d

/-- `ipaddr.js` `ip.match(matchIp, mask)`: the two addresses agree on their
first `mask` bits. -/
def ipMatch (ip matchIp : Nat) (mask : Nat) : Bool :=
  ip / 2 ^ (32 - mask) == matchIp / 2 ^ (32 - mask)

/-- Inner loop of `longestPrefixMatch` (`src/utils.js:117-122`): the first
mask in `1..31` at which the candidate stops matching yields a pushed value of
`mask - 1`; when the loop never breaks (the candidate shares at least 31 bits)
nothing is pushed. -/
def prefixEntry (ip matchIp : Nat) : Option Nat :=
  ((List.range' 1 31).find? (fun mask => !(ipMatch ip matchIp mask))).map (fun m => m - 1)

/-- `longestPrefixMatch(ipList, matchIp)` (`src/utils.js:111-128`):
`prefixMatches` collects the pushed values, `Math.max` plus `indexOf` select
an index into `prefixMatches`, and that index is read back from `ipList`
(JS yields `undefined` when the list is empty, modelled as `none`). -/
def longestPrefixMatch (ipList : List Nat) (matchIp : Nat) : Option Nat :=
  let prefixMatches := ipList.filterMap (fun ip => prefixEntry ip matchIp)
  match prefixMatches.max? with
  | none => none
  | some mx => ipList[prefixMatches.indexOf mx]?

/-- Length of the longest common bit prefix of two 32-bit addresses; this is
the quantity the specification's gateway chooser is defined by. -/
def commonPrefixLen (ip1 ip2 : Nat) : Nat :=
  Nat.findGreatest (fun k => ip1 / 2 ^ (32 - k) = ip2 / 2 ^ (32 - k)) 32

/-! ### Renewal timers of `Mapper.addMapping` (`src/mappers/mapper.js:58-86`) -/

/-- The fields of a successful `createMapping` response the renewal logic
reads: the granted external port and the granted lifetime `mapping.ttl`. -/
structure GrantedMapping where
  externalPort : Nat
  ttl : Int
deriving DecidableEq

/-- One armed `setTimeout`: its delay in milliseconds and the arguments the
re-invoked `addMapping` is bound to. -/
structure RenewTimer where
  delayMs : Int
  intPort : Nat
  extPort : Nat
  reqTtl : Int
deriving DecidableEq

/-- `ttl = !ttl ? 24 * 60 * 60 : ttl` (`src/mappers/mapper.js:33`). -/
def normalizeTtl (ttl : Int) : Int := if ttl = 0 then 24 * 60 * 60 else ttl

/-- Timers armed by the success callback of `Mapper.addMapping`
(`src/mappers/mapper.js:62-81`), after `ttl` has been normalized:
`realTtl = ttl - mapping.ttl`; a positive `realTtl` arms one refresh at
`mapping.ttl * 1000` ms re-invoking `addMapping(intPort,
mapping.externalPort, realTtl)`; otherwise a non-positive `ttl` arms one
24-hour refresh; otherwise none. -/
def renewTimersAfter (ttl : Int) (intPort : Nat) (m : Option GrantedMapping) :
    List RenewTimer :=
  let realTtl := ttl - (match m with | some mp => mp.ttl | none => 0)
  match m with
  | some mp =>
    if realTtl > 0 then [⟨mp.ttl * 1000, intPort, mp.externalPort, realTtl⟩]
    else if ttl ≤ 0 then [⟨24 * 60 * 60 * 1000, intPort, mp.externalPort, 0⟩]
    else []
  | none => []

/-- Timers armed by one `Mapper.addMapping(intPort, extPort, ttlReq)` call
whose dispatch produced `m`. -/
def mapperAddMappingTimers (intPort : Nat) (ttlReq : Int) (m : Option GrantedMapping) :
    List RenewTimer :=
  renewTimersAfter (normalizeTtl ttlReq) intPort m

/-! ### Two-wave dispatch (`src/mappers/mapper.js:31-57`, `93-110`) -/

/-- The bundled gateway seed list `ROUTER_IPS` (`src/utils.js:10-16`). -/
def ROUTER_IPS : List Nat :=
  [mkIp 192 168 1 1, mkIp 192 168 2 1, mkIp 192 168 11 1,
   mkIp 192 168 0 1, mkIp 192 168 0 30, mkIp 192 168 0 50, mkIp 192 168 20 1,
   mkIp 192 168 30 1, mkIp 192 168 62 1, mkIp 192 168 100 1, mkIp 192 168 102 1,
   mkIp 192 168 1 254, mkIp 192 168 10 1, mkIp 192 168 123 254, mkIp 192 168 4 1,
   mkIp 10 0 0 1, mkIp 10 0 1 1, mkIp 10 1 1 1, mkIp 10 0 0 13, mkIp 10 0 0 2,
   mkIp 10 0 0 138]

/-- `filterRouterIps` (`src/utils.js:38-44`): one chooser result per private
IP.  A null chooser result contributes no candidate (spec §4.2: callers skip
it), hence `filterMap`. -/
def filterRouterIps (privateIps : List Nat) : List Nat :=
  privateIps.filterMap (fun p => longestPrefixMatch ROUTER_IPS p)

/-- `[...new Set(l)]`: insertion order, first occurrence kept. -/
def jsSetOf (l : List Nat) : List Nat :=
  l.foldl (fun acc x => if x ∈ acc then acc else acc ++ [x]) []

/-- The matched wave (`src/mappers/mapper.js:38-41`): the router-IP cache
together with the longest-prefix matches of the private IPs, deduplicated. -/
def matchedWave (routerIpCache privateIps : List Nat) : List Nat :=
  jsSetOf (routerIpCache ++ filterRouterIps privateIps)

/-- `Mapper._sendRequests` (`src/mappers/mapper.js:93-110`): `tryEach` over
the candidate router IPs; the attempt oracle stands for `createMapping`
against one candidate.  Returns the candidates actually attempted in order,
the updated router-IP cache (the responding candidate is pushed on success),
and the callback outcome (`tryEach` on `[]` reports success with an undefined
mapping, modelled `.ok none`). -/
def sendRequestsTrace {μ : Type} (attempt : Nat → Except Nat μ) :
    List Nat → List Nat → List Nat × List Nat × Except Nat (Option μ)
  | [], cache => ([], cache, .ok none)
  | [ip], cache =>
    match attempt ip with
    | .ok m => ([ip], cache ++ [ip], .ok (some m))
    | .error e => ([ip], cache, .error e)
  | ip :: ip2 :: tl, cache =>
    match attempt ip with
    | .ok m => ([ip], cache ++ [ip], .ok (some m))
    | .error _ =>
      let out := sendRequestsTrace attempt (ip2 :: tl) cache
      (ip :: out.1, out.2.1, out.2.2)

/-- The fallback wave (`src/mappers/mapper.js:54`): the known `ROUTER_IPS`
that are not in the matched wave. -/
def fallbackWave (routerIpCache privateIps : List Nat) : List Nat :=
  ROUTER_IPS.filter (fun ip => !((matchedWave routerIpCache privateIps).contains ip))

/-- The two-wave dispatch of `Mapper.addMapping` (`src/mappers/mapper.js:43-57`):
`tryEach` first sends to the matched wave, then, only if that errored, to the
fallback wave. -/
def mapperDispatch {μ : Type} (attempt : Nat → Except Nat μ)
    (routerIpCache privateIps : List Nat) :
    List Nat × List Nat × Except Nat (Option μ) :=
  let out := sendRequestsTrace attempt (matchedWave routerIpCache privateIps) routerIpCache
  match out.2.2 with
  | .error _ =>
    let out2 := sendRequestsTrace attempt (fallbackWave routerIpCache privateIps) out.2.1
    (out.1 ++ out2.1, out2.2.1, out2.2.2)
  | _ => out

/-! ### PCP codec (`src/mappers/pcp.js`, `src/utils.js:56-72`) -/

/-- An `ArrayBuffer` viewed through a `DataView`: its byte size and its byte
contents (zero-initialized). -/
structure Buf where
  size : Nat
  data : Nat → Nat

/-- Store one byte. -/
def setByte (b : Buf) (off v : Nat) : Buf :=
  ⟨b.size, fun i => if i = off then v % 256 else b.data i⟩

/-- `DataView.setInt8(off, v)`. -/
def setInt8 (b : Buf) (off v : Nat) : Buf := setByte b off v

/-- `DataView.setInt16(off, v, false)`: big-endian 16-bit store. -/
def setInt16 (b : Buf) (off v : Nat) : Buf :=
  setByte (setByte b off (v / 2 ^ 8)) (off + 1) v

/-- `DataView.setInt32(off, v, false)`: big-endian 32-bit store. -/
def setInt32 (b : Buf) (off v : Nat) : Buf :=
  setByte (setByte (setByte (setByte b off (v / 2 ^ 24)) (off + 1) (v / 2 ^ 16))
    (off + 2) (v / 2 ^ 8)) (off + 3) v

/-- `createArrayBuffer(bytes, matrix)` (`src/utils.js:56-72`): a zeroed buffer
with each matrix row applied in order; a row width other than 8/16/32 writes
nothing. -/
def createArrayBuffer (bytes : Nat) (matrix : List (Nat × Nat × Nat)) : Buf :=
  matrix.foldl (fun b row =>
    if row.1 = 8 then setInt8 b row.2.1 row.2.2
    else if row.1 = 16 then setInt16 b row.2.1 row.2.2
    else if row.1 = 32 then setInt32 b row.2.1 row.2.2
    else b) ⟨bytes, fun _ => 0⟩

/-- The PCP MAP request datagram built by `sendPcpRequest`
(`src/mappers/pcp.js:281-296`). -/
def sendPcpRequestBuffer (lifetime : Nat) (o0 o1 o2 o3 : Nat)
    (n0 n1 n2 : Nat) (intPort extPort : Nat) : Buf :=
  createArrayBuffer 60 [
    (32, 0, 0x2010000),
    (32, 4, lifetime),
    (16, 18, 0xffff),
    (8, 20, o0),
    (8, 21, o1),
    (8, 22, o2),
    (8, 23, o3),
    (32, 24, n0),
    (32, 28, n1),
    (32, 32, n2),
    (8, 36, 17),
    (16, 40, intPort),
    (16, 42, extPort),
    (16, 54, 0xffff)]

/-- The deletion request of `PCP.deleteMapping` (`src/mappers/pcp.js:188`):
`sendPcpRequest(routerIp, privateIp, intPort, 0, 0, nonce)` — external port 0,
lifetime 0, the record's original nonce. -/
def pcpDeleteRequestBuffer (o0 o1 o2 o3 : Nat) (n0 n1 n2 : Nat) (intPort : Nat) : Buf :=
  sendPcpRequestBuffer 0 o0 o1 o2 o3 n0 n1 n2 intPort 0

/-- A PCP active-mapping record, with the fields `deleteMapping` reads. -/
structure PcpEntry where
  internalPort : Nat
  nonce : Nat × Nat × Nat
  timeoutId : Nat
deriving DecidableEq

/-- `activeMappings` of the PCP module: keyed by external port
(`src/mappers/pcp.js:156`). -/
abbrev PcpTable := List (Nat × PcpEntry)

/-- `_deleteFromActiveMappings(responses)` (`src/mappers/pcp.js:217-232`):
scan the (possibly null) gateway responses in order; the first one whose
result-code byte (offset 3) is 0 or 8 clears the record's renewal timer,
deletes the entry and reports success; otherwise nothing changes and the
deletion reports failure.  Returns (success flag, table, cleared timers). -/
def deleteFromActiveMappings (responses : List (Option Buf)) (t : PcpTable)
    (extPort : Nat) : Bool × PcpTable × List Nat :=
  match responses with
  | [] => (false, t, [])
  | r :: rest =>
    match r with
    | some b =>
      if b.data 3 = 0 ∨ b.data 3 = 8 then
        (true, jsDelete t extPort,
          match jsGet t extPort with
          | some e => [e.timeoutId]
          | none => [])
      else deleteFromActiveMappings rest t extPort
    | none => deleteFromActiveMappings rest t extPort

/-! ### `Mapper.deleteMapping` (`src/mappers/mapper.js:112-127`) -/

/-- An entry of a mapper's own `this.mappings` registry, with the fields
`deleteMapping` reads. -/
structure LocalMapping where
  internalPort : Nat
  routerIp : Nat
  externalPort : Nat
deriving DecidableEq

/-- Model of `Mapper.deleteMapping(port, activeMappings, callback)`
(`src/mappers/mapper.js:112-127`).  `internalDelete` is the outcome
`_internalDeleteMapping` reports to its callback.  Result: the value the
callback is invoked with (`none` when the registered mapping is missing and
the property access throws before any callback), the updated `this.mappings`,
and the updated `activeMappings`.  On an internal-delete error the callback
returns early with the error and neither table is touched. -/
def mapperDeleteMapping (self : List (Nat × LocalMapping)) (active : List (Nat × Nat))
    (port : Nat) (internalDelete : LocalMapping → Except Nat Unit) :
    Option (Except Nat Unit) × List (Nat × LocalMapping) × List (Nat × Nat) :=
  match jsGet self port with
  | none => (none, self, active)
  | some m =>
    match internalDelete m with
    | .error e => (some (.error e), self, active)
    | .ok _ => (some (.ok ()), jsDelete self port, jsDelete active port)

/-! ### `NatManager.deleteMapping` (`src/index.js:82-99`) -/

/-- Model of `NatManager.deleteMapping` after the external IP has been
resolved (the given `extIp` or the probed public IP): the manager looks up
`` `${ip}:${extPort}` `` and only calls the owning mapper when the lookup
finds one; `mapperOutcome` abstracts what that mapper's callback reports.
Result: the value the overall callback is invoked with (`none`: never
invoked) and the manager's table (which this method itself never edits). -/
def natDeleteMapping (t : MgrTable) (resolvedIp : List Char) (extPort : Nat)
    (mapperOutcome : Except Nat Unit) : Option (Except Nat Unit) × MgrTable :=
  match jsGet t (mkKey resolvedIp extPort) with
  | none => (none, t)
  | some _ => (some mapperOutcome, t)

/-! ### `NatManager.renewMappings` (`src/index.js:37-60`) -/

/-- The mapping record the sweep reads through
`this.activeMappings[key].mappings[key]`, with the fields it uses. -/
structure SweepEntry where
  externalIp : List Char
  internalPort : Nat
  externalPort : Nat
  ttl : Int
deriving DecidableEq

/-- The manager's table as the sweep sees it: composite key to the mapping
record reachable through the owning mapper. -/
abbrev SweepTable := List (List Char × SweepEntry)

/-- Model of the `eachSeries` body of `NatManager.renewMappings`
(`src/index.js:44-58`) over the snapshot `keys`, given the probed public IP
and an oracle for what `this.addMapping` re-establishes per key.  For each
key: a failed record lookup throws (continuation never called); a record
whose `externalIp` equals the public IP runs no branch, so its per-key
continuation `cb` is never called and the series stalls; otherwise the entry
is deleted, `addMapping` re-adds, and an `addMapping` error returns without
calling `cb` (stall again).  Returns (completion callback invoked?, final
table, records processed in order). -/
def renewSweep (pubIp : List Char)
    (reAdd : List Char → Except Nat (List Char × SweepEntry)) :
    List (List Char) → SweepTable → Bool × SweepTable × List (List Char × SweepEntry)
  | [], t => (true, t, [])
  | k :: ks, t =>
    match jsGet t k with
    | none => (false, t, [])
    | some e =>
      if e.externalIp = pubIp then (false, t, [(k, e)])
      else
        match reAdd k with
        | .error _ => (false, jsDelete t k, [(k, e)])
        | .ok (k2, e2) =>
          let out := renewSweep pubIp reAdd ks (jsSet (jsDelete t k) k2 e2)
          (out.1, out.2.1, (k, e) :: out.2.2)

theorem jsGet_jsSet_self {κ α : Type} [DecidableEq κ] (t : List (κ × α)) (k : κ) (v : α) :
    jsGet (jsSet t k v) k = some v := by
  induction t with
  | nil => simp [jsGet, jsSet]
  | cons p rest ih =>
    obtain ⟨k1, v1⟩ := p
    by_cases h : k1 = k <;> simp [jsGet, jsSet, h, ih]

theorem jsGet_jsSet_ne {κ α : Type} [DecidableEq κ] (t : List (κ × α)) (k k0 : κ) (v : α)
    (h : k0 ≠ k) : jsGet (jsSet t k v) k0 = jsGet t k0 := by
  induction t with
  | nil => simp [jsGet, jsSet, Ne.symm h]
  | cons p rest ih =>
    obtain ⟨k1, v1⟩ := p
    by_cases h1 : k1 = k
    · subst h1
      simp [jsGet, jsSet, Ne.symm h]
    · simp [jsGet, jsSet, h1, ih]

theorem keysOf_jsSet {κ α : Type} [DecidableEq κ] (t : List (κ × α)) (k : κ) (v : α) :
    keysOf (jsSet t k v) = if k ∈ keysOf t then keysOf t else keysOf t ++ [k] := by
  simp only [keysOf]
  induction t with
  | nil => simp [jsSet]
  | cons p rest ih =>
    obtain ⟨k1, v1⟩ := p
    by_cases h : k1 = k
    · subst h
      simp [jsSet]
    · by_cases hm : k ∈ List.map Prod.fst rest
      · simp [jsSet, if_neg h, hm, Ne.symm h, ih]
      · simp [jsSet, if_neg h, hm, Ne.symm h, ih]

theorem nodup_keysOf_jsSet {κ α : Type} [DecidableEq κ] (t : List (κ × α)) (k : κ) (v : α)
    (h : (keysOf t).Nodup) : (keysOf (jsSet t k v)).Nodup := by
  rw [keysOf_jsSet]
  by_cases hm : k ∈ keysOf t
  · simpa [hm]
  · simpa [hm] using List.Nodup.append h (List.nodup_singleton k) (by simpa using hm)

theorem keysOf_jsDelete_sublist {κ α : Type} [DecidableEq κ] (t : List (κ × α)) (k : κ) :
    (keysOf (jsDelete t k)).Sublist (keysOf t) := by
  induction t with
  | nil => simp [keysOf, jsDelete]
  | cons p rest ih =>
    obtain ⟨k1, v1⟩ := p
    by_cases h : k1 = k
    · simp only [keysOf, jsDelete, if_pos h, List.map_cons]
      exact List.sublist_cons_of_sublist _ (List.Sublist.refl _)
    · simp only [keysOf, jsDelete, if_neg h, List.map_cons]
      exact List.Sublist.cons₂ _ ih

theorem nodup_keysOf_jsDelete {κ α : Type} [DecidableEq κ] (t : List (κ × α)) (k : κ)
    (h : (keysOf t).Nodup) : (keysOf (jsDelete t k)).Nodup :=
  (keysOf_jsDelete_sublist t k).nodup h

theorem nodup_keysOf_applyOps (ops : List TableOp) : (keysOf (applyOps ops)).Nodup := by
  suffices h : ∀ t : MgrTable, (keysOf t).Nodup →
      (keysOf (ops.foldl applyOp t)).Nodup by
    exact h [] (by simp [keysOf])
  induction ops with
  | nil => intro t ht; simpa using ht
  | cons op rest ih =>
    intro t ht
    simp only [List.foldl_cons]
    apply ih
    cases op with
    | set k v => exact nodup_keysOf_jsSet t k v ht
    | del k => exact nodup_keysOf_jsDelete t k ht

theorem digitVal_digitChar : ∀ k, k < 10 → digitVal (Nat.digitChar k) = k := by decide

theorem digitChar_ne_colon : ∀ k, k < 10 → Nat.digitChar k ≠ ':' := by decide

theorem charsVal_append_digit (cs : List Char) (c : Char) :
    charsVal (cs ++ [c]) = charsVal cs * 10 + digitVal c := by
  simp [charsVal, List.foldl_append]

theorem charsVal_natCharsFuel : ∀ f n, n < f → charsVal (natCharsFuel f n) = n := by
  intro f
  induction f with
  | zero => intro n h; omega
  | succ f ih =>
    intro n h
    by_cases h10 : n < 10
    · simp only [natCharsFuel, if_pos h10, charsVal, List.foldl_cons, List.foldl_nil,
        Nat.zero_mul, Nat.zero_add]
      exact digitVal_digitChar n h10
    · have hdiv : n / 10 < f := by
        have := Nat.div_lt_self (show 0 < n by omega) (show 1 < 10 by omega)
        omega
      simp only [natCharsFuel, if_neg h10]
      rw [charsVal_append_digit, ih (n / 10) hdiv, digitVal_digitChar (n % 10) (by omega)]
      omega

theorem charsVal_natChars (n : Nat) : charsVal (natChars n) = n :=
  charsVal_natCharsFuel (n + 1) n (Nat.lt_succ_self n)

theorem natChars_inj {m n : Nat} (h : natChars m = natChars n) : m = n := by
  have := congrArg charsVal h
  rwa [charsVal_natChars, charsVal_natChars] at this

theorem colon_not_mem_natCharsFuel : ∀ f n, ':' ∉ natCharsFuel f n := by
  intro f
  induction f with
  | zero => intro n; simp [natCharsFuel]
  | succ f ih =>
    intro n
    by_cases h10 : n < 10
    · simp only [natCharsFuel, if_pos h10]
      simpa using (digitChar_ne_colon n h10).symm
    · simp only [natCharsFuel, if_neg h10, List.mem_append]
      push_neg
      exact ⟨ih (n / 10), by simpa using (digitChar_ne_colon (n % 10) (by omega)).symm⟩

theorem colon_not_mem_natChars (n : Nat) : ':' ∉ natChars n :=
  colon_not_mem_natCharsFuel (n + 1) n

theorem append_colon_inj {a b xs ys : List Char} (ha : ':' ∉ a) (hb : ':' ∉ b)
    (h : a ++ ':' :: xs = b ++ ':' :: ys) : a = b ∧ xs = ys := by
  induction a generalizing b with
  | nil =>
    cases b with
    | nil => simpa using h
    | cons c cs =>
      exfalso
      simp only [List.nil_append, List.cons_append, List.cons.injEq] at h
      exact hb (h.1 ▸ List.mem_cons_self c cs)
  | cons c cs ih =>
    cases b with
    | nil =>
      exfalso
      simp only [List.cons_append, List.nil_append, List.cons.injEq] at h
      exact ha (h.1 ▸ List.mem_cons_self c cs)
    | cons d ds =>
      simp only [List.cons_append, List.cons.injEq] at h
      have ha2 : ':' ∉ cs := fun hc => ha (List.mem_cons_of_mem c hc)
      have hb2 : ':' ∉ ds := fun hc => hb (List.mem_cons_of_mem d hc)
      obtain ⟨h1, h2⟩ := ih ha2 hb2 h.2
      exact ⟨by rw [h.1, h1], h2⟩

theorem mkKey_inj {ip1 ip2 : List Char} {p1 p2 : Nat} (h1 : colonFree ip1)
    (h2 : colonFree ip2) (h : mkKey ip1 p1 = mkKey ip2 p2) : ip1 = ip2 ∧ p1 = p2 := by
  obtain ⟨hip, hp⟩ := append_colon_inj h1 h2 h
  exact ⟨hip, natChars_inj hp⟩

theorem jsGet_eq_none_of_not_mem {κ α : Type} [DecidableEq κ] (t : List (κ × α)) (k : κ)
    (h : k ∉ keysOf t) : jsGet t k = none := by
  induction t with
  | nil => rfl
  | cons p rest ih =>
    obtain ⟨k1, v1⟩ := p
    simp only [keysOf, List.map_cons, List.mem_cons] at h
    push_neg at h
    simp only [jsGet, if_neg (Ne.symm h.1)]
    exact ih h.2

theorem jsGet_jsDelete_self {κ α : Type} [DecidableEq κ] (t : List (κ × α)) (k : κ)
    (h : (keysOf t).Nodup) : jsGet (jsDelete t k) k = none := by
  induction t with
  | nil => rfl
  | cons p rest ih =>
    obtain ⟨k1, v1⟩ := p
    simp only [keysOf, List.map_cons, List.nodup_cons] at h
    by_cases hk : k1 = k
    · subst hk
      simp only [jsDelete, if_pos rfl]
      exact jsGet_eq_none_of_not_mem rest k1 h.1
    · simp only [jsDelete, if_neg hk, jsGet, if_neg hk]
      exact ih h.2

/-- Claim C3: a mapping created with requested lifetime `R` and granted
lifetime `G`, `0 < G < R`, arms exactly one renewal timer, whose delay is
`G * 1000` ms and whose expiry re-invokes `addMapping` with the same internal
port, the granted external port, and requested lifetime `R - G`
(`src/mappers/mapper.js:62-81`). -/
theorem mapper_renewal_schedules_remainder (r g : Int) (intPort extPort : Nat)
    (hg : 0 < g) (hr : g < r) :
    mapperAddMappingTimers intPort r (some ⟨extPort, g⟩) =
      [⟨g * 1000, intPort, extPort, r - g⟩] := by
  have hr0 : ¬ r = 0 := by omega
  have hpos : r - g > 0 := by omega
  simp [mapperAddMappingTimers, normalizeTtl, renewTimersAfter, hr0, hpos]

/-- Witness for C3: the spec's S3 scenario — requested 3600, granted 120:
one timer at 120000 ms re-requesting lifetime 3480. -/
theorem mapper_renewal_schedules_remainder_witness :
    mapperAddMappingTimers 55555 3600 (some ⟨55556, 120⟩) =
      [⟨120000, 55555, 55556, 3480⟩] := by
  have h := mapper_renewal_schedules_remainder 3600 120 55555 55556 (by norm_num) (by norm_num)
  simpa using h

/-- Claim C4 fails on the code: `longestPrefixMatch` pushes nothing for a
candidate sharing at least 31 bits with the address
(`src/utils.js:117-122` never breaks), so with candidates
`[10.0.0.1, 192.168.1.21]` and address `192.168.1.20` it returns `10.0.0.1`
(0 common bits) although `192.168.1.21` shares 31 bits — contradicting the
function's own doc comment ("returns the longest prefix match in the IP
list").  The last conjunct records that the claim's concrete S6 example does
hold. -/
theorem longestPrefixMatch_skips_close_candidate :
    longestPrefixMatch [mkIp 10 0 0 1, mkIp 192 168 1 21] (mkIp 192 168 1 20) =
      some (mkIp 10 0 0 1) ∧
    commonPrefixLen (mkIp 192 168 1 21) (mkIp 192 168 1 20) = 31 ∧
    commonPrefixLen (mkIp 10 0 0 1) (mkIp 192 168 1 20) = 0 ∧
    longestPrefixMatch [mkIp 192 168 1 1, mkIp 10 0 0 1] (mkIp 192 168 1 20) =
      some (mkIp 192 168 1 1) := by
  refine ⟨by decide, by decide, by decide, by decide⟩

/-- Claim C9: when the manager's table has no entry under the resolved
external IP and port, `NatManager.deleteMapping` never invokes its callback
and leaves the table unchanged (`src/index.js:92-97`: the waterfall's second
step only calls its continuation inside `if (mapper)`). -/
theorem natManager_delete_missing_no_callback (t : MgrTable) (ip : List Char)
    (extPort : Nat) (mapperOutcome : Except Nat Unit)
    (h : jsGet t (mkKey ip extPort) = none) :
    natDeleteMapping t ip extPort mapperOutcome = (none, t) := by
  simp [natDeleteMapping, h]

/-- Witness for C9 at a concrete table holding an unrelated entry. -/
theorem natManager_delete_missing_no_callback_witness :
    natDeleteMapping [(mkKey ['b'] 9, 0)] ['a'] 3 (.ok ()) =
      (none, [(mkKey ['b'] 9, 0)]) :=
  natManager_delete_missing_no_callback [(mkKey ['b'] 9, 0)] ['a'] 3 (.ok ()) (by decide)

/-- Claim C8: the PCP MAP request encoder emits exactly 60 bytes with the
version/opcode word `0x02010000` at offset 0, the big-endian lifetime at
offset 4, `0xffff` at offsets 18-19 followed by the client IPv4 octets at
20-23, the 12 nonce bytes at 24-35, protocol 17 at offset 36, the internal
port at 40, the suggested external port at 42, `0xffff` at offset 54, and
every other byte zero (`src/mappers/pcp.js:281-296`). -/
theorem pcp_request_layout (lifetime o0 o1 o2 o3 n0 n1 n2 intPort extPort : Nat)
    (ho0 : o0 < 256) (ho1 : o1 < 256) (ho2 : o2 < 256) (ho3 : o3 < 256)
    (hip : intPort < 65536) (hep : extPort < 65536) :
    (sendPcpRequestBuffer lifetime o0 o1 o2 o3 n0 n1 n2 intPort extPort).size = 60 ∧
    ((sendPcpRequestBuffer lifetime o0 o1 o2 o3 n0 n1 n2 intPort extPort).data 0 = 2 ∧
     (sendPcpRequestBuffer lifetime o0 o1 o2 o3 n0 n1 n2 intPort extPort).data 1 = 1 ∧
     (sendPcpRequestBuffer lifetime o0 o1 o2 o3 n0 n1 n2 intPort extPort).data 2 = 0 ∧
     (sendPcpRequestBuffer lifetime o0 o1 o2 o3 n0 n1 n2 intPort extPort).data 3 = 0) ∧
    ((sendPcpRequestBuffer lifetime o0 o1 o2 o3 n0 n1 n2 intPort extPort).data 4 =
        lifetime / 2 ^ 24 % 256 ∧
     (sendPcpRequestBuffer lifetime o0 o1 o2 o3 n0 n1 n2 intPort extPort).data 5 =
        lifetime / 2 ^ 16 % 256 ∧
     (sendPcpRequestBuffer lifetime o0 o1 o2 o3 n0 n1 n2 intPort extPort).data 6 =
        lifetime / 2 ^ 8 % 256 ∧
     (sendPcpRequestBuffer lifetime o0 o1 o2 o3 n0 n1 n2 intPort extPort).data 7 =
        lifetime % 256) ∧
    ((sendPcpRequestBuffer lifetime o0 o1 o2 o3 n0 n1 n2 intPort extPort).data 18 = 255 ∧
     (sendPcpRequestBuffer lifetime o0 o1 o2 o3 n0 n1 n2 intPort extPort).data 19 = 255) ∧
    ((sendPcpRequestBuffer lifetime o0 o1 o2 o3 n0 n1 n2 intPort extPort).data 20 = o0 ∧
     (sendPcpRequestBuffer lifetime o0 o1 o2 o3 n0 n1 n2 intPort extPort).data 21 = o1 ∧
     (sendPcpRequestBuffer lifetime o0 o1 o2 o3 n0 n1 n2 intPort extPort).data 22 = o2 ∧
     (sendPcpRequestBuffer lifetime o0 o1 o2 o3 n0 n1 n2 intPort extPort).data 23 = o3) ∧
    ((sendPcpRequestBuffer lifetime o0 o1 o2 o3 n0 n1 n2 intPort extPort).data 24 =
        n0 / 2 ^ 24 % 256 ∧
     (sendPcpRequestBuffer lifetime o0 o1 o2 o3 n0 n1 n2 intPort extPort).data 25 =
        n0 / 2 ^ 16 % 256 ∧
     (sendPcpRequestBuffer lifetime o0 o1 o2 o3 n0 n1 n2 intPort extPort).data 26 =
        n0 / 2 ^ 8 % 256 ∧
     (sendPcpRequestBuffer lifetime o0 o1 o2 o3 n0 n1 n2 intPort extPort).data 27 =
        n0 % 256 ∧
     (sendPcpRequestBuffer lifetime o0 o1 o2 o3 n0 n1 n2 intPort extPort).data 28 =
        n1 / 2 ^ 24 % 256 ∧
     (sendPcpRequestBuffer lifetime o0 o1 o2 o3 n0 n1 n2 intPort extPort).data 29 =
        n1 / 2 ^ 16 % 256 ∧
     (sendPcpRequestBuffer lifetime o0 o1 o2 o3 n0 n1 n2 intPort extPort).data 30 =
        n1 / 2 ^ 8 % 256 ∧
     (sendPcpRequestBuffer lifetime o0 o1 o2 o3 n0 n1 n2 intPort extPort).data 31 =
        n1 % 256 ∧
     (sendPcpRequestBuffer lifetime o0 o1 o2 o3 n0 n1 n2 intPort extPort).data 32 =
        n2 / 2 ^ 24 % 256 ∧
     (sendPcpRequestBuffer lifetime o0 o1 o2 o3 n0 n1 n2 intPort extPort).data 33 =
        n2 / 2 ^ 16 % 256 ∧
     (sendPcpRequestBuffer lifetime o0 o1 o2 o3 n0 n1 n2 intPort extPort).data 34 =
        n2 / 2 ^ 8 % 256 ∧
     (sendPcpRequestBuffer lifetime o0 o1 o2 o3 n0 n1 n2 intPort extPort).data 35 =
        n2 % 256) ∧
    (sendPcpRequestBuffer lifetime o0 o1 o2 o3 n0 n1 n2 intPort extPort).data 36 = 17 ∧
    ((sendPcpRequestBuffer lifetime o0 o1 o2 o3 n0 n1 n2 intPort extPort).data 40 =
        intPort / 256 ∧
     (sendPcpRequestBuffer lifetime o0 o1 o2 o3 n0 n1 n2 intPort extPort).data 41 =
        intPort % 256) ∧
    ((sendPcpRequestBuffer lifetime o0 o1 o2 o3 n0 n1 n2 intPort extPort).data 42 =
        extPort / 256 ∧
     (sendPcpRequestBuffer lifetime o0 o1 o2 o3 n0 n1 n2 intPort extPort).data 43 =
        extPort % 256) ∧
    ((sendPcpRequestBuffer lifetime o0 o1 o2 o3 n0 n1 n2 intPort extPort).data 54 = 255 ∧
     (sendPcpRequestBuffer lifetime o0 o1 o2 o3 n0 n1 n2 intPort extPort).data 55 = 255) ∧
    (∀ i ∈ [8, 9, 10, 11, 12, 13, 14, 15, 16, 17, 37, 38, 39, 44, 45, 46, 47, 48,
        49, 50, 51, 52, 53, 56, 57, 58, 59],
      (sendPcpRequestBuffer lifetime o0 o1 o2 o3 n0 n1 n2 intPort extPort).data i = 0) := by
  refine ⟨rfl, ⟨rfl, rfl, rfl, rfl⟩, ⟨rfl, rfl, rfl, rfl⟩, ⟨rfl, rfl⟩,
    ⟨?_, ?_, ?_, ?_⟩,
    ⟨rfl, rfl, rfl, rfl, rfl, rfl, rfl, rfl, rfl, rfl, rfl, rfl⟩, rfl,
    ⟨?_, rfl⟩, ⟨?_, rfl⟩, ⟨rfl, rfl⟩, ?_⟩
  · show o0 % 256 = o0
    omega
  · show o1 % 256 = o1
    omega
  · show o2 % 256 = o2
    omega
  · show o3 % 256 = o3
    omega
  · show intPort / 2 ^ 8 % 256 = intPort / 256
    omega
  · show extPort / 2 ^ 8 % 256 = extPort / 256
    omega
  · intro i hi
    fin_cases hi <;> rfl

/-- Witness for C8 at a concrete request. -/
theorem pcp_request_layout_witness :
    ((192 : Nat) < 256 ∧ (5000 : Nat) < 65536 ∧ (6000 : Nat) < 65536) ∧
    (sendPcpRequestBuffer 600 192 168 1 2 9 8 7 5000 6000).size = 60 ∧
    (sendPcpRequestBuffer 600 192 168 1 2 9 8 7 5000 6000).data 36 = 17 :=
  ⟨⟨by norm_num, by norm_num, by norm_num⟩,
    (pcp_request_layout 600 192 168 1 2 9 8 7 5000 6000 (by norm_num) (by norm_num)
      (by norm_num) (by norm_num) (by norm_num) (by norm_num)).1,
    (pcp_request_layout 600 192 168 1 2 9 8 7 5000 6000 (by norm_num) (by norm_num)
      (by norm_num) (by norm_num) (by norm_num) (by norm_num)).2.2.2.2.2.2.1⟩

/-- Claim C1: a successful `addMapping` registers its result under the
composite `` `${externalIp}:${externalPort}` `` key (`src/index.js:73-74`);
every table state reachable through the source's mutations has pairwise
distinct keys (so no two entries share an `(externalIP, externalPort)` key);
and registering under one external IP never overwrites an entry with the
same external port under a different (colon-free) external IP. -/
theorem activeMappings_composite_key :
    (∀ (results : List (Nat × Except Nat MgrMapping)) (t : MgrTable) (m : MgrMapping),
        (natAddMapping results t).1 = .ok (some m) →
        ∃ i, jsGet (natAddMapping results t).2.1 (mkKey m.externalIp m.externalPort) =
          some i) ∧
    (∀ ops : List TableOp, (keysOf (applyOps ops)).Nodup) ∧
    (∀ (t : MgrTable) (ip1 ip2 : List Char) (port : Nat) (v : Nat),
        colonFree ip1 → colonFree ip2 → ip1 ≠ ip2 →
        jsGet (jsSet t (mkKey ip2 port) v) (mkKey ip1 port) =
          jsGet t (mkKey ip1 port)) := by
  refine ⟨?_, nodup_keysOf_applyOps, ?_⟩
  · intro results
    induction results with
    | nil =>
      intro t m h
      simp [natAddMapping] at h
    | cons hd rest ih =>
      intro t m h
      obtain ⟨i, r⟩ := hd
      cases r with
      | ok m0 =>
        simp only [natAddMapping] at h ⊢
        have hm : m0 = m := by
          simpa using h
        subst hm
        exact ⟨i, jsGet_jsSet_self t (mgrKey m0) i⟩
      | error e =>
        cases rest with
        | nil => simp [natAddMapping] at h
        | cons hd2 rest2 =>
          simp only [natAddMapping] at h ⊢
          exact ih t m h
  · intro t ip1 ip2 port v h1 h2 hne
    apply jsGet_jsSet_ne
    intro hkey
    exact hne (mkKey_inj h1 h2 hkey).1

/-- Witness for C1: a new mapping on external IP `b` with port 80 leaves the
entry for external IP `a`, same port, untouched. -/
theorem activeMappings_composite_key_witness :
    jsGet (jsSet [(mkKey ['a'] 80, 1)] (mkKey ['b'] 80) 2) (mkKey ['a'] 80) = some 1 := by
  have h := activeMappings_composite_key.2.2 [(mkKey ['a'] 80, 1)] ['a'] ['b'] 80 2
    (by decide) (by decide) (by decide)
  rw [h]
  decide

/-- Claim C2: `NatManager.addMapping` tries the mappers in construction order
(`async/tryEach`, `src/index.js:62-80`): if the first `i` mappers fail and
mapper `i` succeeds with record `m`, the call returns `m` and exactly the
first `i + 1` mappers were attempted; if every mapper fails, the call fails
with the last mapper's error. -/
theorem natManager_adapter_order :
    (∀ (results : List (Nat × Except Nat MgrMapping)) (t : MgrTable)
        (i : Nat) (hi : i < results.length) (mid : Nat) (m : MgrMapping),
        results.get ⟨i, hi⟩ = (mid, .ok m) →
        (∀ j (hj : j < i), ∃ e0, (results.get ⟨j, Nat.lt_trans hj hi⟩).2 = .error e0) →
        (natAddMapping results t).1 = .ok (some m) ∧
        (natAddMapping results t).2.2 = (results.take (i + 1)).map Prod.fst) ∧
    (∀ (results : List (Nat × Except Nat MgrMapping)) (t : MgrTable) (mid : Nat) (e : Nat),
        results.getLast? = some (mid, .error e) →
        (∀ r ∈ results, ∃ e0, r.2 = Except.error e0) →
        (natAddMapping results t).1 = .error e) := by
  constructor
  · intro results
    induction results with
    | nil =>
      intro t i hi
      exact absurd hi (by simp)
    | cons hd rest ih =>
      intro t i hi mid m hget hprev
      obtain ⟨hid, hr⟩ := hd
      cases i with
      | zero =>
        have hhd : (hid, hr) = (mid, Except.ok m) := hget
        injection hhd with h1 h2
        subst h1
        subst h2
        simp [natAddMapping]
      | succ i2 =>
        obtain ⟨e0, he0⟩ := hprev 0 (Nat.succ_pos i2)
        have hr0 : hr = Except.error e0 := he0
        subst hr0
        cases rest with
        | nil => exact absurd hi (by simp)
        | cons hd2 rest2 =>
          have hi2 : i2 < (hd2 :: rest2).length := by
            simpa using Nat.lt_of_succ_lt_succ hi
          have hget2 : (hd2 :: rest2).get ⟨i2, hi2⟩ = (mid, Except.ok m) := hget
          have hprev2 : ∀ j (hj : j < i2),
              ∃ e1, ((hd2 :: rest2).get ⟨j, Nat.lt_trans hj hi2⟩).2 = .error e1 := by
            intro j hj
            obtain ⟨e1, he1⟩ := hprev (j + 1) (Nat.succ_lt_succ hj)
            exact ⟨e1, he1⟩
          obtain ⟨hres, htrace⟩ := ih t i2 hi2 mid m hget2 hprev2
          constructor
          · simpa [natAddMapping] using hres
          · simp only [natAddMapping]
            rw [List.take_succ_cons, List.map_cons, htrace]
  · intro results
    induction results with
    | nil =>
      intro t mid e hlast
      simp at hlast
    | cons hd rest ih =>
      intro t mid e hlast hall
      obtain ⟨hid, hr⟩ := hd
      obtain ⟨e0, he0⟩ := hall (hid, hr) (List.mem_cons_self _ _)
      have hr0 : hr = Except.error e0 := he0
      subst hr0
      cases rest with
      | nil =>
        have : hid = mid ∧ e0 = e := by
          simpa using hlast
        obtain ⟨rfl, rfl⟩ := this
        simp [natAddMapping]
      | cons hd2 rest2 =>
        rw [List.getLast?_cons_cons] at hlast
        have := ih t mid e hlast (fun r hr2 => hall r (List.mem_cons_of_mem _ hr2))
        simpa [natAddMapping] using this

/-- Witness for C2: the spec's S1 scenario — first mapper fails, second
succeeds; the second mapper's record is returned and both were attempted in
order. -/
theorem natManager_adapter_order_witness :
    (natAddMapping [(1, .error 9), (2, .ok ⟨[], 55555, 55555, 2⟩)] []).1 =
      .ok (some ⟨[], 55555, 55555, 2⟩) ∧
    (natAddMapping [(1, .error 9), (2, .ok ⟨[], 55555, 55555, 2⟩)] []).2.2 = [1, 2] := by
  have h := natManager_adapter_order.1
    [(1, .error 9), (2, .ok ⟨[], 55555, 55555, 2⟩)] [] 1 (by norm_num) 2
    ⟨[], 55555, 55555, 2⟩ rfl ?_
  · exact ⟨h.1, by simpa using h.2⟩
  · intro j hj
    interval_cases j
    exact ⟨9, rfl⟩

theorem deleteFromActiveMappings_found (t : PcpTable) (extPort : Nat) (e : PcpEntry)
    (hfound : jsGet t extPort = some e) :
    ∀ responses : List (Option Buf),
      (∃ r ∈ responses, ∃ b, r = some b ∧ (b.data 3 = 0 ∨ b.data 3 = 8)) →
      deleteFromActiveMappings responses t extPort =
        (true, jsDelete t extPort, [e.timeoutId]) := by
  intro responses
  induction responses with
  | nil =>
    rintro ⟨r, hr, _⟩
    simp at hr
  | cons r0 rest ih =>
    rintro ⟨r, hr, b, hb, hcode⟩
    cases r0 with
    | none =>
      have hmem : r ∈ rest := by
        rcases List.mem_cons.mp hr with h0 | h0
        · subst h0; exact absurd hb (by simp)
        · exact h0
      simp only [deleteFromActiveMappings]
      exact ih ⟨r, hmem, b, hb, hcode⟩
    | some b0 =>
      by_cases hc0 : b0.data 3 = 0 ∨ b0.data 3 = 8
      · simp only [deleteFromActiveMappings, if_pos hc0, hfound]
      · have hmem : r ∈ rest := by
          rcases List.mem_cons.mp hr with h0 | h0
          · subst h0
            obtain rfl : b0 = b := by simpa using hb
            exact absurd hcode hc0
          · exact h0
        simp only [deleteFromActiveMappings, if_neg hc0]
        exact ih ⟨r, hmem, b, hb, hcode⟩

theorem deleteFromActiveMappings_allBad (t : PcpTable) (extPort : Nat) :
    ∀ responses : List (Option Buf),
      (∀ r ∈ responses, ∀ b, r = some b → ¬(b.data 3 = 0 ∨ b.data 3 = 8)) →
      deleteFromActiveMappings responses t extPort = (false, t, []) := by
  intro responses
  induction responses with
  | nil => intro _; rfl
  | cons r0 rest ih =>
    intro hall
    cases r0 with
    | none =>
      simp only [deleteFromActiveMappings]
      exact ih (fun r hr b hb => hall r (List.mem_cons_of_mem _ hr) b hb)
    | some b0 =>
      have hc0 := hall (some b0) (List.mem_cons_self _ _) b0 rfl
      simp only [deleteFromActiveMappings, if_neg hc0]
      exact ih (fun r hr b hb => hall r (List.mem_cons_of_mem _ hr) b hb)

/-- Claim C6: the PCP deletion request carries lifetime 0 at offset 4 and the
record's original nonce at offsets 24-35 (`src/mappers/pcp.js:188`); a
response whose result code (byte 3) is 0 or 8 — and only such a response —
completes the deletion, clearing the record's renewal timer and removing the
entry; if every response carries another code the deletion fails and the
entry stays (`src/mappers/pcp.js:217-232`). -/
theorem pcp_delete_nonce_and_result_codes
    (o0 o1 o2 o3 n0 n1 n2 intPort : Nat)
    (responses : List (Option Buf)) (t : PcpTable) (extPort : Nat) (e : PcpEntry)
    (hfound : jsGet t extPort = some e) (hnodup : (keysOf t).Nodup) :
    ((pcpDeleteRequestBuffer o0 o1 o2 o3 n0 n1 n2 intPort).data 4 = 0 ∧
     (pcpDeleteRequestBuffer o0 o1 o2 o3 n0 n1 n2 intPort).data 5 = 0 ∧
     (pcpDeleteRequestBuffer o0 o1 o2 o3 n0 n1 n2 intPort).data 6 = 0 ∧
     (pcpDeleteRequestBuffer o0 o1 o2 o3 n0 n1 n2 intPort).data 7 = 0) ∧
    ((pcpDeleteRequestBuffer o0 o1 o2 o3 n0 n1 n2 intPort).data 24 = n0 / 2 ^ 24 % 256 ∧
     (pcpDeleteRequestBuffer o0 o1 o2 o3 n0 n1 n2 intPort).data 25 = n0 / 2 ^ 16 % 256 ∧
     (pcpDeleteRequestBuffer o0 o1 o2 o3 n0 n1 n2 intPort).data 26 = n0 / 2 ^ 8 % 256 ∧
     (pcpDeleteRequestBuffer o0 o1 o2 o3 n0 n1 n2 intPort).data 27 = n0 % 256 ∧
     (pcpDeleteRequestBuffer o0 o1 o2 o3 n0 n1 n2 intPort).data 28 = n1 / 2 ^ 24 % 256 ∧
     (pcpDeleteRequestBuffer o0 o1 o2 o3 n0 n1 n2 intPort).data 29 = n1 / 2 ^ 16 % 256 ∧
     (pcpDeleteRequestBuffer o0 o1 o2 o3 n0 n1 n2 intPort).data 30 = n1 / 2 ^ 8 % 256 ∧
     (pcpDeleteRequestBuffer o0 o1 o2 o3 n0 n1 n2 intPort).data 31 = n1 % 256 ∧
     (pcpDeleteRequestBuffer o0 o1 o2 o3 n0 n1 n2 intPort).data 32 = n2 / 2 ^ 24 % 256 ∧
     (pcpDeleteRequestBuffer o0 o1 o2 o3 n0 n1 n2 intPort).data 33 = n2 / 2 ^ 16 % 256 ∧
     (pcpDeleteRequestBuffer o0 o1 o2 o3 n0 n1 n2 intPort).data 34 = n2 / 2 ^ 8 % 256 ∧
     (pcpDeleteRequestBuffer o0 o1 o2 o3 n0 n1 n2 intPort).data 35 = n2 % 256) ∧
    ((∃ r ∈ responses, ∃ b, r = some b ∧ (b.data 3 = 0 ∨ b.data 3 = 8)) →
       deleteFromActiveMappings responses t extPort =
         (true, jsDelete t extPort, [e.timeoutId]) ∧
       jsGet (jsDelete t extPort) extPort = none) ∧
    ((∀ r ∈ responses, ∀ b, r = some b → ¬(b.data 3 = 0 ∨ b.data 3 = 8)) →
       deleteFromActiveMappings responses t extPort = (false, t, [])) := by
  refine ⟨⟨rfl, rfl, rfl, rfl⟩,
    ⟨rfl, rfl, rfl, rfl, rfl, rfl, rfl, rfl, rfl, rfl, rfl, rfl⟩, ?_, ?_⟩
  · intro hgood
    exact ⟨deleteFromActiveMappings_found t extPort e hfound responses hgood,
      jsGet_jsDelete_self t extPort hnodup⟩
  · exact deleteFromActiveMappings_allBad t extPort responses

/-- Witness for C6: a concrete `NO_RESOURCES (8)` response deletes the only
entry and clears its timer 42; a concrete code-5 response changes nothing. -/
theorem pcp_delete_nonce_and_result_codes_witness :
    deleteFromActiveMappings [some ⟨60, fun i => if i = 3 then 8 else 0⟩]
      [(5, ⟨1000, (1, 2, 3), 42⟩)] 5 = (true, [], [42]) ∧
    deleteFromActiveMappings [some ⟨60, fun i => if i = 3 then 5 else 0⟩]
      [(5, ⟨1000, (1, 2, 3), 42⟩)] 5 = (false, [(5, ⟨1000, (1, 2, 3), 42⟩)], []) := by
  constructor
  · have h := (pcp_delete_nonce_and_result_codes 0 0 0 0 1 2 3 1000
      [some ⟨60, fun i => if i = 3 then 8 else 0⟩] [(5, ⟨1000, (1, 2, 3), 42⟩)] 5
      ⟨1000, (1, 2, 3), 42⟩ rfl (by decide)).2.2.1 ?_
    · exact h.1
    · exact ⟨some ⟨60, fun i => if i = 3 then 8 else 0⟩, by simp,
        ⟨60, fun i => if i = 3 then 8 else 0⟩, rfl, by norm_num⟩
  · refine (pcp_delete_nonce_and_result_codes 0 0 0 0 1 2 3 1000
      [some ⟨60, fun i => if i = 3 then 5 else 0⟩] [(5, ⟨1000, (1, 2, 3), 42⟩)] 5
      ⟨1000, (1, 2, 3), 42⟩ rfl (by decide)).2.2.2 ?_
    rintro r hr b hb
    obtain rfl : r = some ⟨60, fun i => if i = 3 then 5 else 0⟩ := by simpa using hr
    obtain rfl : (⟨60, fun i => if i = 3 then 5 else 0⟩ : Buf) = b := by simpa using hb
    norm_num

/-- Claim C7 counterexample: a registered mapping at port 5 and an adapter
whose `_internalDeleteMapping` reports error 7 — the error is surfaced but
the entry is NOT removed from either registry
(`src/mappers/mapper.js:117-119` returns before the deletes run), refuting
"removed regardless of adapter failure". -/
theorem mapperDeleteMapping_keeps_entry_on_error :
    mapperDeleteMapping [(5, ⟨5, 0, 5⟩)] [(5, 1)] 5 (fun _ => .error 7) =
      (some (.error 7), [(5, ⟨5, 0, 5⟩)], [(5, 1)]) ∧
    jsGet (mapperDeleteMapping [(5, ⟨5, 0, 5⟩)] [(5, 1)] 5 (fun _ => .error 7)).2.1 5 =
      some ⟨5, 0, 5⟩ :=
  ⟨rfl, rfl⟩

/-- Claim C7 amended: `Mapper.deleteMapping` removes the local registry
entries exactly when the adapter's internal-delete callback reports success;
an adapter error is surfaced to the caller and the entries are left in place
(`src/mappers/mapper.js:112-127`). -/
theorem mapperDeleteMapping_removes_iff_ok
    (self : List (Nat × LocalMapping)) (active : List (Nat × Nat)) (port : Nat)
    (m : LocalMapping) (f : LocalMapping → Except Nat Unit)
    (hfound : jsGet self port = some m) (hnodup : (keysOf self).Nodup) :
    (f m = .ok () →
      mapperDeleteMapping self active port f =
        (some (.ok ()), jsDelete self port, jsDelete active port) ∧
      jsGet (jsDelete self port) port = none) ∧
    (∀ e, f m = .error e →
      mapperDeleteMapping self active port f = (some (.error e), self, active)) := by
  constructor
  · intro hok
    refine ⟨?_, jsGet_jsDelete_self self port hnodup⟩
    simp [mapperDeleteMapping, hfound, hok]
  · intro e he
    simp [mapperDeleteMapping, hfound, he]

/-- Witness for C7's amended claim: adapter success removes the entry from
both registries. -/
theorem mapperDeleteMapping_removes_iff_ok_witness :
    mapperDeleteMapping [(5, ⟨5, 0, 5⟩)] [(5, 1)] 5 (fun _ => .ok ()) =
      (some (.ok ()), [], []) := by
  have h := (mapperDeleteMapping_removes_iff_ok [(5, ⟨5, 0, 5⟩)] [(5, 1)] 5 ⟨5, 0, 5⟩
    (fun _ => .ok ()) (by decide) (by decide)).1 rfl
  exact h.1

theorem sendRequestsTrace_isPre {μ : Type} (attempt : Nat → Except Nat μ) :
    ∀ (ips cache : List Nat),
      ∃ tail, (sendRequestsTrace attempt ips cache).1 ++ tail = ips := by
  intro ips
  induction ips with
  | nil => intro cache; exact ⟨[], rfl⟩
  | cons ip tl ih =>
    intro cache
    cases tl with
    | nil =>
      cases hA : attempt ip with
      | ok m => exact ⟨[], by simp [sendRequestsTrace, hA]⟩
      | error e => exact ⟨[], by simp [sendRequestsTrace, hA]⟩
    | cons ip2 tl2 =>
      cases hA : attempt ip with
      | ok m => exact ⟨ip2 :: tl2, by simp [sendRequestsTrace, hA]⟩
      | error e =>
        obtain ⟨tail, htail⟩ := ih cache
        exact ⟨tail, by simp [sendRequestsTrace, hA, htail]⟩

theorem sendRequestsTrace_ok_some {μ : Type} (attempt : Nat → Except Nat μ) :
    ∀ (ips cache : List Nat) (m : μ),
      (sendRequestsTrace attempt ips cache).2.2 = .ok (some m) →
      ∃ pre ip, (sendRequestsTrace attempt ips cache).1 = pre ++ [ip] ∧
        (∀ x ∈ pre, ∃ e, attempt x = .error e) ∧
        attempt ip = .ok m ∧
        (sendRequestsTrace attempt ips cache).2.1 = cache ++ [ip] := by
  intro ips
  induction ips with
  | nil =>
    intro cache m h
    simp [sendRequestsTrace] at h
  | cons ip tl ih =>
    intro cache m h
    cases tl with
    | nil =>
      cases hA : attempt ip with
      | ok m0 =>
        have hm : m0 = m := by
          have hh := h
          simp [sendRequestsTrace, hA] at hh
          exact hh
        subst hm
        exact ⟨[], ip, by simp [sendRequestsTrace, hA], by simp, hA,
          by simp [sendRequestsTrace, hA]⟩
      | error e => simp [sendRequestsTrace, hA] at h
    | cons ip2 tl2 =>
      cases hA : attempt ip with
      | ok m0 =>
        have hm : m0 = m := by
          have hh := h
          simp [sendRequestsTrace, hA] at hh
          exact hh
        subst hm
        exact ⟨[], ip, by simp [sendRequestsTrace, hA], by simp, hA,
          by simp [sendRequestsTrace, hA]⟩
      | error e =>
        have h2 : (sendRequestsTrace attempt (ip2 :: tl2) cache).2.2 = .ok (some m) := by
          simpa [sendRequestsTrace, hA] using h
        obtain ⟨pre, ip3, htr, hpre, hok, hc⟩ := ih cache m h2
        refine ⟨ip :: pre, ip3, ?_, ?_, hok, ?_⟩
        · simp [sendRequestsTrace, hA, htr]
        · intro x hx
          rcases List.mem_cons.mp hx with h0 | h0
          · exact ⟨e, h0 ▸ hA⟩
          · exact hpre x h0
        · simpa [sendRequestsTrace, hA] using hc

theorem sendRequestsTrace_error {μ : Type} (attempt : Nat → Except Nat μ) :
    ∀ (ips cache : List Nat) (e : Nat),
      (sendRequestsTrace attempt ips cache).2.2 = .error e →
      (sendRequestsTrace attempt ips cache).1 = ips ∧
      (sendRequestsTrace attempt ips cache).2.1 = cache ∧
      (∀ x ∈ ips, ∃ e0, attempt x = .error e0) := by
  intro ips
  induction ips with
  | nil =>
    intro cache e h
    simp [sendRequestsTrace] at h
  | cons ip tl ih =>
    intro cache e h
    cases tl with
    | nil =>
      cases hA : attempt ip with
      | ok m0 => simp [sendRequestsTrace, hA] at h
      | error e1 =>
        refine ⟨by simp [sendRequestsTrace, hA], by simp [sendRequestsTrace, hA], ?_⟩
        intro x hx
        obtain rfl : x = ip := by simpa using hx
        exact ⟨e1, hA⟩
    | cons ip2 tl2 =>
      cases hA : attempt ip with
      | ok m0 => simp [sendRequestsTrace, hA] at h
      | error e1 =>
        have h2 : (sendRequestsTrace attempt (ip2 :: tl2) cache).2.2 = .error e := by
          simpa [sendRequestsTrace, hA] using h
        obtain ⟨htr, hc, hall⟩ := ih cache e h2
        refine ⟨by simp [sendRequestsTrace, hA, htr],
          by simpa [sendRequestsTrace, hA] using hc, ?_⟩
        intro x hx
        rcases List.mem_cons.mp hx with h0 | h0
        · exact ⟨e1, h0 ▸ hA⟩
        · exact hall x h0

/-- Claim C5: for one single-adapter `addMapping` attempt the candidates are
split into the matched wave (`matchedWave`: router-IP cache plus the chooser
results for each private IP) and the fallback wave (`fallbackWave`: remaining
`ROUTER_IPS`); the attempted candidates form a prefix of the matched wave
followed by a prefix of the fallback wave, and a fallback candidate is only
attempted after every matched candidate was attempted and failed; a
successful dispatch is resolved by its first succeeding attempt, whose router
IP is pushed into the router-IP cache (`src/mappers/mapper.js:31-57, 93-110`). -/
theorem mapper_dispatch_waves {μ : Type} (attempt : Nat → Except Nat μ)
    (cache privateIps : List Nat) :
    (∃ mt ft,
      (mapperDispatch attempt cache privateIps).1 = mt ++ ft ∧
      (∃ r1, mt ++ r1 = matchedWave cache privateIps) ∧
      (∃ r2, ft ++ r2 = fallbackWave cache privateIps) ∧
      (ft ≠ [] → mt = matchedWave cache privateIps ∧
        ∀ x ∈ matchedWave cache privateIps, ∃ e, attempt x = .error e)) ∧
    (∀ m, (mapperDispatch attempt cache privateIps).2.2 = .ok (some m) →
      ∃ pre ip, (mapperDispatch attempt cache privateIps).1 = pre ++ [ip] ∧
        (∀ x ∈ pre, ∃ e, attempt x = .error e) ∧
        attempt ip = .ok m ∧
        ip ∈ (mapperDispatch attempt cache privateIps).2.1) := by
  cases h1 : (sendRequestsTrace attempt (matchedWave cache privateIps) cache).2.2 with
  | error e =>
    have hdisp : mapperDispatch attempt cache privateIps =
        ((sendRequestsTrace attempt (matchedWave cache privateIps) cache).1 ++
          (sendRequestsTrace attempt (fallbackWave cache privateIps)
            (sendRequestsTrace attempt (matchedWave cache privateIps) cache).2.1).1,
         (sendRequestsTrace attempt (fallbackWave cache privateIps)
            (sendRequestsTrace attempt (matchedWave cache privateIps) cache).2.1).2.1,
         (sendRequestsTrace attempt (fallbackWave cache privateIps)
            (sendRequestsTrace attempt (matchedWave cache privateIps) cache).2.1).2.2) := by
      simp only [mapperDispatch, h1]
    obtain ⟨hm1, hmc, hmall⟩ :=
      sendRequestsTrace_error attempt (matchedWave cache privateIps) cache e h1
    constructor
    · refine ⟨(sendRequestsTrace attempt (matchedWave cache privateIps) cache).1,
        (sendRequestsTrace attempt (fallbackWave cache privateIps)
          (sendRequestsTrace attempt (matchedWave cache privateIps) cache).2.1).1,
        by rw [hdisp], ⟨[], by simp [hm1]⟩, ?_, ?_⟩
      · obtain ⟨tail, htail⟩ := sendRequestsTrace_isPre attempt
          (fallbackWave cache privateIps)
          (sendRequestsTrace attempt (matchedWave cache privateIps) cache).2.1
        exact ⟨tail, htail⟩
      · intro _
        exact ⟨hm1, hmall⟩
    · intro m hres
      rw [hdisp] at hres
      obtain ⟨pre, ip, htr, hpre, hok, hc⟩ := sendRequestsTrace_ok_some attempt
        (fallbackWave cache privateIps)
        (sendRequestsTrace attempt (matchedWave cache privateIps) cache).2.1 m hres
      refine ⟨(sendRequestsTrace attempt (matchedWave cache privateIps) cache).1 ++ pre,
        ip, ?_, ?_, hok, ?_⟩
      · rw [hdisp]
        simp [htr]
      · intro x hx
        rcases List.mem_append.mp hx with h0 | h0
        · exact hmall x (by rwa [hm1] at h0)
        · exact hpre x h0
      · rw [hdisp]
        simp only []
        rw [hc]
        simp
  | ok r =>
    have hdisp : mapperDispatch attempt cache privateIps =
        sendRequestsTrace attempt (matchedWave cache privateIps) cache := by
      simp only [mapperDispatch, h1]
    constructor
    · refine ⟨(sendRequestsTrace attempt (matchedWave cache privateIps) cache).1, [],
        by simp [hdisp], ?_, ⟨fallbackWave cache privateIps, by simp⟩, ?_⟩
      · exact sendRequestsTrace_isPre attempt (matchedWave cache privateIps) cache
      · intro hne
        exact absurd rfl hne
    · intro m hres
      rw [hdisp] at hres
      obtain ⟨pre, ip, htr, hpre, hok, hc⟩ := sendRequestsTrace_ok_some attempt
        (matchedWave cache privateIps) cache m hres
      refine ⟨pre, ip, by rw [hdisp]; exact htr, hpre, hok, ?_⟩
      rw [hdisp, hc]
      simp

/-- Witness for C5: a cached router answers at once; the dispatch resolves on
that first success and the responding IP is in the updated cache. -/
theorem mapper_dispatch_waves_witness :
    ∃ pre ip,
      (mapperDispatch (fun x => if x = mkIp 10 0 0 1 then Except.ok 0 else Except.error 1)
        [mkIp 10 0 0 1] []).1 = pre ++ [ip] ∧
      (∀ x ∈ pre, ∃ e,
        (fun x => if x = mkIp 10 0 0 1 then Except.ok 0 else Except.error 1) x =
          .error e) ∧
      (fun x => if x = mkIp 10 0 0 1 then Except.ok 0 else Except.error 1) ip =
        .ok 0 ∧
      ip ∈ (mapperDispatch (fun x => if x = mkIp 10 0 0 1 then Except.ok 0 else Except.error 1)
        [mkIp 10 0 0 1] []).2.1 :=
  (mapper_dispatch_waves (fun x => if x = mkIp 10 0 0 1 then Except.ok 0 else Except.error 1)
    [mkIp 10 0 0 1] []).2 0 rfl

/-- Claim C10: the `renewMappings` sweep's completion callback is invoked
only when every processed mapping's stored `externalIp` differs from the
probed public IP (vacuously, when the key snapshot is empty); a processed
mapping whose `externalIp` equals the public IP runs no branch of
`src/index.js:46-57`, so its per-key continuation is never called — the
completion callback is not invoked and that mapping is still in the table. -/
theorem renewMappings_stalls_on_current_ip
    (pubIp : List Char) (reAdd : List Char → Except Nat (List Char × SweepEntry)) :
    ∀ (keys : List (List Char)) (t : SweepTable),
      ((renewSweep pubIp reAdd keys t).1 = true →
        ∀ p ∈ (renewSweep pubIp reAdd keys t).2.2, p.2.externalIp ≠ pubIp) ∧
      (∀ p ∈ (renewSweep pubIp reAdd keys t).2.2, p.2.externalIp = pubIp →
        (renewSweep pubIp reAdd keys t).1 = false ∧
        jsGet (renewSweep pubIp reAdd keys t).2.1 p.1 = some p.2) := by
  intro keys
  induction keys with
  | nil =>
    intro t
    constructor
    · intro _ p hp
      simp [renewSweep] at hp
    · intro p hp
      simp [renewSweep] at hp
  | cons k ks ih =>
    intro t
    cases hg : jsGet t k with
    | none =>
      constructor
      · intro _ p hp
        simp [renewSweep, hg] at hp
      · intro p hp
        simp [renewSweep, hg] at hp
    | some e =>
      by_cases heq : e.externalIp = pubIp
      · constructor
        · intro hdone
          simp [renewSweep, hg, heq] at hdone
        · intro p hp hpe
          have hp2 : p = (k, e) := by
            simpa [renewSweep, hg, heq] using hp
          subst hp2
          refine ⟨by simp [renewSweep, hg, heq], ?_⟩
          have hq : (renewSweep pubIp reAdd (k :: ks) t).2.1 = t := by
            simp [renewSweep, hg, heq]
          rw [hq]
          exact hg
      · cases hra : reAdd k with
        | error e2 =>
          constructor
          · intro hdone
            simp [renewSweep, hg, heq, hra] at hdone
          · intro p hp hpe
            have hp2 : p = (k, e) := by
              simpa [renewSweep, hg, heq, hra] using hp
            subst hp2
            exact absurd hpe heq
        | ok ke2 =>
          obtain ⟨k2, e2⟩ := ke2
          have hstep : renewSweep pubIp reAdd (k :: ks) t =
              ((renewSweep pubIp reAdd ks (jsSet (jsDelete t k) k2 e2)).1,
               (renewSweep pubIp reAdd ks (jsSet (jsDelete t k) k2 e2)).2.1,
               (k, e) :: (renewSweep pubIp reAdd ks (jsSet (jsDelete t k) k2 e2)).2.2) := by
            simp [renewSweep, hg, heq, hra]
          constructor
          · intro hdone p hp
            rw [hstep] at hdone hp
            rcases List.mem_cons.mp hp with h0 | h0
            · subst h0
              exact heq
            · exact (ih (jsSet (jsDelete t k) k2 e2)).1 hdone p h0
          · intro p hp hpe
            rw [hstep] at hp
            rcases List.mem_cons.mp hp with h0 | h0
            · subst h0
              exact absurd hpe heq
            · obtain ⟨hf, hgp⟩ := (ih (jsSet (jsDelete t k) k2 e2)).2 p h0 hpe
              rw [hstep]
              exact ⟨hf, hgp⟩

/-- Witness for C10: one mapping whose stored external IP equals the current
public IP — the completion callback is not invoked and the entry stays. -/
theorem renewMappings_stalls_on_current_ip_witness :
    (renewSweep ['p'] (fun _ => .error 0) [['k']]
      [(['k'], ⟨['p'], 1, 2, 0⟩)]).1 = false ∧
    jsGet (renewSweep ['p'] (fun _ => .error 0) [['k']]
      [(['k'], ⟨['p'], 1, 2, 0⟩)]).2.1 ['k'] = some ⟨['p'], 1, 2, 0⟩ :=
  (renewMappings_stalls_on_current_ip ['p'] (fun _ => .error 0) [['k']]
    [(['k'], ⟨['p'], 1, 2, 0⟩)]).2 (['k'], ⟨['p'], 1, 2, 0⟩) (by decide) rfl

end NatMngr
